import Mathlib

/-!
Shallow embedding of the ORCID affiliation dashboard core
(src/utils/orcid_api.py): the record parser (parse_record), the domain
search client (search_by_email_domains) with its run-scoped telemetry,
and the merge engine (merge_with_existing_data), together with proofs
checking the natural-language specification against this embedding.

Conventions of the embedding:
* Python/JSON scalar values are modelled by Value (absent values, that
  is None/NaN/missing keys, plus strings and integers); pandas
  timestamps are represented by their epoch-millisecond integer value,
  so the to_datetime conversion is value-preserving here.
* A pandas DataFrame is modelled by its ordered column list plus its
  row list.  A Row stores a Value for every column the pipeline can
  ever produce; a cell at a column that is absent from the enclosing
  column list is normalised to Value.none (the NaN pandas reports
  there) whenever rows cross from one frame to another (pd.concat).
* Network effects are modelled by passing the outcome of the search
  request and of every per-identifier record fetch as an explicit
  argument.  Python exceptions raised out of a function are modelled
  by Except.error; exceptions that the source catches internally are
  folded into the normal return value, mirroring the except blocks.
-/

/-- Scalar cell value: absent (None/NaN), string, or integer. -/
inductive Value where
  | none
  | s (v : String)
  | i (v : Int)
  deriving DecidableEq, Repr

/-- Python truthiness of a scalar, as used by the source in
the expression start_year and end_year. -/
def Value.truthy : Value → Bool
  | Value.none => false
  | Value.s v => v ≠ ""
  | Value.i n => n ≠ 0

/-- Numeric coercion, modelling pd.to_numeric with coercing errors:
integers pass through, numeric strings are parsed, everything else
becomes absent (NaN). -/
def Value.toNum : Value → Option Int
  | Value.none => Option.none
  | Value.s v => v.toInt?
  | Value.i n => some n

/-- The sixteen column labels the pipeline can produce (dict keys of the
affiliation literal in parse_record, lines 67-84 of orcid_api.py). -/
inductive Col where
  | orcidId
  | givenNames
  | familyName
  | relRole
  | relTitle
  | department
  | startYear
  | endYear
  | duration
  | dateCreated
  | lastModified
  | source
  | identType
  | identValue
  | emailAddresses
  | orgName
  deriving DecidableEq, Repr

/-- One table row: a cell for every possible column. -/
structure Row where
  orcidId : Value
  givenNames : Value
  familyName : Value
  relRole : Value
  relTitle : Value
  department : Value
  startYear : Value
  endYear : Value
  duration : Value
  dateCreated : Value
  lastModified : Value
  source : Value
  identType : Value
  identValue : Value
  emailAddresses : Value
  orgName : Value
  deriving DecidableEq, Repr

/-- Cell lookup by column label. -/
def Row.get (r : Row) : Col → Value
  | Col.orcidId => r.orcidId
  | Col.givenNames => r.givenNames
  | Col.familyName => r.familyName
  | Col.relRole => r.relRole
  | Col.relTitle => r.relTitle
  | Col.department => r.department
  | Col.startYear => r.startYear
  | Col.endYear => r.endYear
  | Col.duration => r.duration
  | Col.dateCreated => r.dateCreated
  | Col.lastModified => r.lastModified
  | Col.source => r.source
  | Col.identType => r.identType
  | Col.identValue => r.identValue
  | Col.emailAddresses => r.emailAddresses
  | Col.orgName => r.orgName

/-- Cell update by column label. -/
def Row.set (r : Row) (c : Col) (v : Value) : Row :=
  match c with
  | Col.orcidId => { r with orcidId := v }
  | Col.givenNames => { r with givenNames := v }
  | Col.familyName => { r with familyName := v }
  | Col.relRole => { r with relRole := v }
  | Col.relTitle => { r with relTitle := v }
  | Col.department => { r with department := v }
  | Col.startYear => { r with startYear := v }
  | Col.endYear => { r with endYear := v }
  | Col.duration => { r with duration := v }
  | Col.dateCreated => { r with dateCreated := v }
  | Col.lastModified => { r with lastModified := v }
  | Col.source => { r with source := v }
  | Col.identType => { r with identType := v }
  | Col.identValue => { r with identValue := v }
  | Col.emailAddresses => { r with emailAddresses := v }
  | Col.orgName => { r with orgName := v }

/-- Row built from a cell-valued function. -/
def Row.ofFn (f : Col → Value) : Row :=
  ⟨f Col.orcidId, f Col.givenNames, f Col.familyName, f Col.relRole,
   f Col.relTitle, f Col.department, f Col.startYear, f Col.endYear,
   f Col.duration, f Col.dateCreated, f Col.lastModified, f Col.source,
   f Col.identType, f Col.identValue, f Col.emailAddresses, f Col.orgName⟩

/-- Replace every cell outside the given column list by the absent
value: this is the row as pandas sees it when it leaves a frame whose
columns are cs (cells at columns the frame does not have are NaN). -/
def normRow (cs : List Col) (r : Row) : Row :=
  Row.ofFn (fun c => if cs.contains c then r.get c else Value.none)

/-- A pandas DataFrame: ordered column labels plus rows. -/
structure DataFrame where
  cols : List Col
  rows : List Row
  deriving DecidableEq, Repr

/-- The composite deduplication key used by drop_duplicates in
merge_with_existing_data (line 246): ORCID ID, Org Affiliation Relation
Role, Start Year, End Year. -/
def keyOf (r : Row) : Value × Value × Value × Value :=
  (r.get Col.orcidId, r.get Col.relRole, r.get Col.startYear, r.get Col.endYear)

/-- Model of drop_duplicates(subset=key, keep=first): keep a row iff
its key has not been seen earlier in the list (seen accumulates the
keys of kept-or-skipped earlier rows). -/
def dedupAux (seen : List (Value × Value × Value × Value)) :
    List Row → List Row
  | [] => []
  | r :: rs =>
    if keyOf r ∈ seen then dedupAux seen rs
    else r :: dedupAux (keyOf r :: seen) rs

/-- drop_duplicates on the composite key, keeping the first occurrence. -/
def dedupKey (l : List Row) : List Row := dedupAux [] l

/-- One entry of the error_details telemetry list.  The search-stage
entry of the source carries no orcid_id key, hence the Option. -/
structure ErrorDetail where
  orcid_id : Option String
  error : String
  stage : String
  deriving DecidableEq, Repr

/-- The run-scoped search_results structure of OrcidAPI. -/
structure Telemetry where
  total_found : Nat
  processed : Nat
  successful : Nat
  errors : Nat
  orcid_ids : List String
  error_details : List ErrorDetail
  deriving DecidableEq, Repr

/-- Telemetry as reset at the start of search_by_email_domains. -/
def emptyTelemetry : Telemetry :=
  { total_found := 0, processed := 0, successful := 0, errors := 0,
    orcid_ids := [], error_details := [] }

/-- One entry of the email section of a record: the email value (empty
string standing for a missing or null address) and its visibility. -/
structure EmailEntry where
  email : String
  visibility : String
  deriving DecidableEq, Repr

/-- One employment-summary entry of a record.  startYear and endYear are
the raw JSON values of start-date.year.value and end-date.year.value
(Value.none when any level of the chain is missing); createdDate and
lastModifiedDate are epoch-millisecond values. -/
structure EmploymentEntry where
  roleTitle : String
  department : String
  startYear : Value
  endYear : Value
  createdDate : Value
  lastModifiedDate : Value
  identType : String
  identValue : String
  orgName : String
  deriving DecidableEq, Repr

/-- The parts of a fetched ORCID record that parse_record reads. -/
structure OrcidRecord where
  givenNames : String
  familyName : String
  emails : List EmailEntry
  employments : List EmploymentEntry
  deriving DecidableEq, Repr

/-- Query construction of OrcidAPI.build_email_query (lines 27-31). -/
def build_email_query (domains : List String) : String :=
  String.intercalate " OR " (domains.map (fun d => "email:*@" ++ d))

/-- The inclusion condition of the email loop (line 51):
if email.get(email) and email.get(visibility) == public. -/
def pubEmail (e : EmailEntry) : Bool :=
  e.email ≠ "" && e.visibility == "public"

/-- The email-collection loop of parse_record (lines 50-52): an address
is appended iff it is truthy and its visibility equals public. -/
def collectEmails : List EmailEntry → List String → List String
  | [], acc => acc
  | e :: es, acc =>
    collectEmails es (if pubEmail e then acc ++ [e.email] else acc)

/-- The Duration expression of parse_record, line 76:
end_year - start_year if (start_year and end_year) else None.
Returns Option.none exactly when the Python expression raises a
TypeError (both operands truthy but not both integers). -/
def durOpt (sy ey : Value) : Option Value :=
  if sy.truthy && ey.truthy then
    match sy, ey with
    | Value.i a, Value.i b => some (Value.i (b - a))
    | _, _ => Option.none
  else some Value.none

/-- The affiliation dict built for one employment entry
(parse_record lines 67-84). -/
def rowOfEntry (oid gn fn : String) (emails : List String)
    (e : EmploymentEntry) : Row :=
  { orcidId := Value.s oid
    givenNames := Value.s gn
    familyName := Value.s fn
    relRole := Value.s "EMPLOYMENT"
    relTitle := Value.s e.roleTitle
    department := Value.s e.department
    startYear := e.startYear
    endYear := e.endYear
    duration := (durOpt e.startYear e.endYear).getD Value.none
    dateCreated := e.createdDate
    lastModified := e.lastModifiedDate
    source := Value.s "ORCID API"
    identType := Value.s e.identType
    identValue := Value.s e.identValue
    emailAddresses := Value.s (String.intercalate ", " emails)
    orgName := Value.s e.orgName }

/-- The employment loop of parse_record (lines 59-85).  The Bool is
true when a TypeError aborted the loop: the rows built before the
failing entry are kept (the list the except block leaves in scope). -/
def parseEmployments (oid gn fn : String) (emails : List String) :
    List EmploymentEntry → List Row × Bool
  | [] => ([], false)
  | e :: es =>
    match durOpt e.startYear e.endYear with
    | some _ =>
      let rest := parseEmployments oid gn fn emails es
      (rowOfEntry oid gn fn emails e :: rest.1, rest.2)
    | Option.none => ([], true)

/-- The exception text recorded when the Duration subtraction raises
(its exact wording is irrelevant to every claim). -/
def typeErrorMsg : String := "unsupported operand type(s) for -"

/-- OrcidAPI.parse_record (lines 33-98): returns the affiliation rows,
the collected public emails, and the record_parsing error detail that
the except block appended to telemetry, if any.  Exceptions never
escape parse_record (its try covers the whole body). -/
def parse_record (rec : OrcidRecord) (orcid_id : String) :
    List Row × List String × Option ErrorDetail :=
  let emails := collectEmails rec.emails []
  let parsed := parseEmployments orcid_id rec.givenNames rec.familyName emails
    rec.employments
  (parsed.1, emails,
    if parsed.2 then
      some { orcid_id := some orcid_id, error := typeErrorMsg,
             stage := "record_parsing" }
    else Option.none)

/-- Telemetry/row accumulation for one identifier of the fetch loop
(search_by_email_domains lines 146-173): processed is always bumped; a
fetch failure records a record_fetching detail and continues; a fetched
record is parsed, its rows are appended, a parse failure recorded by
parse_record is carried over, and successful is bumped iff at least one
affiliation row was produced. -/
def stepFetch (acc : List Row × Telemetry)
    (p : String × Except String OrcidRecord) : List Row × Telemetry :=
  let t1 : Telemetry := { acc.2 with processed := acc.2.processed + 1 }
  match p.2 with
  | Except.error e =>
    (acc.1,
     { t1 with errors := t1.errors + 1,
               error_details := t1.error_details ++
                 [{ orcid_id := some p.1, error := e, stage := "record_fetching" }] })
  | Except.ok rec =>
    let pr := parse_record rec p.1
    let t2 : Telemetry :=
      match pr.2.2 with
      | some d => { t1 with errors := t1.errors + 1,
                            error_details := t1.error_details ++ [d] }
      | Option.none => t1
    let t3 : Telemetry :=
      if pr.1.isEmpty then t2 else { t2 with successful := t2.successful + 1 }
    (acc.1 ++ pr.1, t3)

/-- Column list of the empty DataFrame returned when no affiliations
were found (lines 207-211). -/
def emptyResultCols : List Col :=
  [Col.orcidId, Col.givenNames, Col.familyName, Col.relRole,
   Col.startYear, Col.endYear, Col.duration, Col.department, Col.source,
   Col.emailAddresses, Col.orgName]

/-- Column order of the DataFrame built from the affiliation dicts
(the dict-literal key order of parse_record). -/
def fullCols : List Col :=
  [Col.orcidId, Col.givenNames, Col.familyName, Col.relRole, Col.relTitle,
   Col.department, Col.startYear, Col.endYear, Col.duration,
   Col.dateCreated, Col.lastModified, Col.source, Col.identType,
   Col.identValue, Col.emailAddresses, Col.orgName]

/-- The required_columns list of lines 191-195. -/
def requiredColumns : List Col :=
  [Col.orcidId, Col.givenNames, Col.familyName, Col.relRole,
   Col.startYear, Col.endYear, Col.department, Col.source,
   Col.emailAddresses, Col.orgName]

/-- Model of pd.to_datetime(col, unit=ms): timestamps are represented
by their epoch-millisecond value, so the conversion is the identity on
cells in this model. -/
def toDatetimeVal (v : Value) : Value := v

/-- Duration recomputation of line 201 (and lines 220/238):
pd.to_numeric(End Year) - pd.to_numeric(Start Year), NaN-propagating. -/
def durRecompute (r : Row) : Value :=
  match (r.get Col.endYear).toNum, (r.get Col.startYear).toNum with
  | some e, some st => Value.i (e - st)
  | _, _ => Value.none

/-- Adds a column (known to be absent) holding one constant value in
every row, as pandas column assignment with a scalar does. -/
def addColConst (df : DataFrame) (c : Col) (v : Value) : DataFrame :=
  { cols := df.cols ++ [c], rows := df.rows.map (fun r => r.set c v) }

/-- The per-row date conversion and Duration recomputation applied to
the freshly built search DataFrame (lines 186-201). -/
def finalizeRow (r : Row) : Row :=
  let r1 := r.set Col.dateCreated (toDatetimeVal (r.get Col.dateCreated))
  let r2 := r1.set Col.lastModified (toDatetimeVal (r1.get Col.lastModified))
  r2.set Col.duration (durRecompute r2)

/-- DataFrame construction at the end of search_by_email_domains
(lines 182-211): empty-but-typed frame when no rows; otherwise the
frame of all affiliation dicts with dates converted, required columns
ensured (a no-op, since the dict literal always carries them) and
Duration recomputed from coerced years. -/
def buildDF (allAff : List Row) : DataFrame :=
  if allAff.isEmpty then { cols := emptyResultCols, rows := [] }
  else
    let dfA : DataFrame :=
      { cols := fullCols,
        rows := allAff.map (fun r =>
          (r.set Col.dateCreated (toDatetimeVal (r.get Col.dateCreated))).set
            Col.lastModified (toDatetimeVal (r.get Col.lastModified))) }
    let dfB : DataFrame := requiredColumns.foldl
      (fun d c => if d.cols.contains c then d else addColConst d c Value.none) dfA
    { cols := dfB.cols,
      rows := dfB.rows.map (fun r => r.set Col.duration (durRecompute r)) }

/-- Result of one search call: the returned DataFrame and telemetry,
plus the parameters of the network search request the call issued
(instrumentation recording that requests.get was reached, line 124). -/
structure SearchOutput where
  table : DataFrame
  telemetry : Telemetry
  searchRequest : Option (String × Nat)
  deriving DecidableEq, Repr

/-- OrcidAPI.search_by_email_domains (lines 100-211).  The network
world is an explicit argument: either the top-level search fails with
an exception text, or it yields the num-found count together with the
ordered identifiers and the outcome of each record fetch.  A fetched
record that the inner try fails to obtain is Except.error; note that
the search request itself is issued unconditionally, before any
validation of the domain list could happen (there is none). -/
def search_by_email_domains (domains : List String) (max_results : Nat)
    (outcome : Except String (Nat × List (String × Except String OrcidRecord))) :
    SearchOutput :=
  let query := build_email_query domains
  let req := some (query, max_results)
  match outcome with
  | Except.error e =>
    { table := buildDF [],
      telemetry := { emptyTelemetry with
        error_details := [{ orcid_id := Option.none, error := e, stage := "search" }] },
      searchRequest := req }
  | Except.ok (numFound, fetches) =>
    let ids := fetches.map Prod.fst
    let t0 : Telemetry := { emptyTelemetry with
      total_found := numFound, orcid_ids := ids }
    let acc := fetches.foldl stepFetch ([], t0)
    { table := buildDF acc.1, telemetry := acc.2, searchRequest := req }

/-- Adds the Duration column (known to be absent) computed per row from
the coerced year columns, as lines 220 and 238 do. -/
def addDurationCol (df : DataFrame) : DataFrame :=
  { cols := df.cols ++ [Col.duration],
    rows := df.rows.map (fun r => r.set Col.duration (durRecompute r)) }

/-- The guarded Duration assignment of merge_with_existing_data
(lines 219-220 and 237-238).  Reading a year column that the frame does
not carry raises a KeyError in pandas, modelled by Except.error. -/
def ensureDuration (df : DataFrame) : Except String DataFrame :=
  if df.cols.contains Col.duration then Except.ok df
  else if df.cols.contains Col.startYear && df.cols.contains Col.endYear then
    Except.ok (addDurationCol df)
  else Except.error "KeyError: Start Year / End Year"

/-- The guarded Source backfill of lines 229-230. -/
def ensureSource (df : DataFrame) : DataFrame :=
  if df.cols.contains Col.source then df
  else addColConst df Col.source (Value.s "File Upload")

/-- The guarded Email Addresses backfill of lines 233-234. -/
def ensureEmail (df : DataFrame) : DataFrame :=
  if df.cols.contains Col.emailAddresses then df
  else addColConst df Col.emailAddresses Value.none

/-- The in-place preparation applied to file_data inside the try block
of merge_with_existing_data (lines 228-238). -/
def prepFile (df : DataFrame) : Except String DataFrame :=
  ensureDuration (ensureEmail (ensureSource df))

/-- OrcidAPI.merge_with_existing_data (lines 213-255), returning
(result, api_data after the call, file_data after the call): pandas
column assignment mutates the argument frame in place, so the post-call
states of both arguments are part of the observable behaviour.
Except.error models an exception reaching the caller (the KeyError of
the api-empty branch escapes uncaught; inside the try block the except
re-raises).  pd.concat puts file_data rows first, fills cells of
columns a side lacks with NaN (normRow), and appends the api-only
columns after the file columns; drop_duplicates keeps the first
occurrence of each composite key and raises if a key column is missing
from the concatenated frame. -/
def merge_with_existing_data (api_data file_data : DataFrame) :
    Except String (DataFrame × DataFrame × DataFrame) :=
  if api_data.rows.isEmpty then
    match ensureDuration file_data with
    | Except.ok fd => Except.ok (fd, api_data, fd)
    | Except.error e => Except.error e
  else if file_data.rows.isEmpty then
    Except.ok (api_data, api_data, file_data)
  else
    match prepFile file_data with
    | Except.error e => Except.error e
    | Except.ok fd3 =>
      let mcols := fd3.cols ++ api_data.cols.filter (fun c => !fd3.cols.contains c)
      let mrows := fd3.rows.map (normRow fd3.cols) ++
        api_data.rows.map (normRow api_data.cols)
      if [Col.orcidId, Col.relRole, Col.startYear, Col.endYear].all
          (fun c => mcols.contains c) then
        Except.ok ({ cols := mcols, rows := dedupKey mrows }, api_data, fd3)
      else Except.error "KeyError: missing deduplication key column"

/-! Basic row and normalisation lemmas. -/

theorem Row.get_ofFn (f : Col → Value) (c : Col) : (Row.ofFn f).get c = f c := by
  cases c <;> rfl

theorem Row.ext_get {r s : Row} (h : ∀ c, r.get c = s.get c) : r = s := by
  cases r
  cases s
  have h1 := h Col.orcidId
  have h2 := h Col.givenNames
  have h3 := h Col.familyName
  have h4 := h Col.relRole
  have h5 := h Col.relTitle
  have h6 := h Col.department
  have h7 := h Col.startYear
  have h8 := h Col.endYear
  have h9 := h Col.duration
  have h10 := h Col.dateCreated
  have h11 := h Col.lastModified
  have h12 := h Col.source
  have h13 := h Col.identType
  have h14 := h Col.identValue
  have h15 := h Col.emailAddresses
  have h16 := h Col.orgName
  simp only [Row.get] at h1 h2 h3 h4 h5 h6 h7 h8 h9 h10 h11 h12 h13 h14 h15 h16
  subst h1 h2 h3 h4 h5 h6 h7 h8 h9 h10 h11 h12 h13 h14 h15 h16
  rfl

theorem Row.get_set (r : Row) (c c' : Col) (v : Value) :
    (r.set c v).get c' = if c' = c then v else r.get c' := by
  cases c <;> cases c' <;> simp [Row.set, Row.get]

theorem normRow_get (cs : List Col) (r : Row) (c : Col) :
    (normRow cs r).get c = if cs.contains c then r.get c else Value.none := by
  simp [normRow, Row.get_ofFn]

theorem normRow_normRow {cs cs' : List Col} (h : ∀ c, cs'.contains c → cs.contains c)
    (r : Row) : normRow cs (normRow cs' r) = normRow cs' r := by
  apply Row.ext_get
  intro c
  rw [normRow_get, normRow_get]
  by_cases hc : cs'.contains c
  · rw [if_pos hc, if_pos (h c hc)]
  · rw [if_neg hc]
    by_cases hc2 : cs.contains c
    · rw [if_pos hc2]
    · rw [if_neg hc2]

theorem keyOf_normRow {cs : List Col} (r : Row)
    (h1 : cs.contains Col.orcidId) (h2 : cs.contains Col.relRole)
    (h3 : cs.contains Col.startYear) (h4 : cs.contains Col.endYear) :
    keyOf (normRow cs r) = keyOf r := by
  simp only [keyOf, normRow_get, if_pos h1, if_pos h2, if_pos h3, if_pos h4]

theorem keyOf_set_source (r : Row) (v : Value) :
    keyOf (r.set Col.source v) = keyOf r := by
  simp [keyOf, Row.get_set]

theorem keyOf_set_email (r : Row) (v : Value) :
    keyOf (r.set Col.emailAddresses v) = keyOf r := by
  simp [keyOf, Row.get_set]

theorem keyOf_set_duration (r : Row) (v : Value) :
    keyOf (r.set Col.duration v) = keyOf r := by
  simp [keyOf, Row.get_set]

/-! Deduplication lemmas. -/

theorem dedupAux_key_not_seen {seen : List (Value × Value × Value × Value)}
    {l : List Row} {b : Row} (h : b ∈ dedupAux seen l) : keyOf b ∉ seen := by
  induction l generalizing seen with
  | nil => simp [dedupAux] at h
  | cons r rs ih =>
    simp only [dedupAux] at h
    by_cases hr : keyOf r ∈ seen
    · simp only [if_pos hr] at h
      exact ih h
    · simp only [if_neg hr] at h
      rcases List.mem_cons.mp h with h | h
      · subst h; exact hr
      · have := ih h
        intro hb
        exact this (List.mem_cons_of_mem _ hb)

theorem dedupAux_subset {seen : List (Value × Value × Value × Value)}
    {l : List Row} {b : Row} (h : b ∈ dedupAux seen l) : b ∈ l := by
  induction l generalizing seen with
  | nil => simp [dedupAux] at h
  | cons r rs ih =>
    simp only [dedupAux] at h
    by_cases hr : keyOf r ∈ seen
    · simp only [if_pos hr] at h
      exact List.mem_cons_of_mem _ (ih h)
    · simp only [if_neg hr] at h
      rcases List.mem_cons.mp h with h | h
      · exact h ▸ List.mem_cons_self _ _
      · exact List.mem_cons_of_mem _ (ih h)

theorem keys_dedupAux (seen : List (Value × Value × Value × Value))
    (l : List Row) (k : Value × Value × Value × Value) :
    k ∈ (dedupAux seen l).map keyOf ↔ k ∈ l.map keyOf ∧ k ∉ seen := by
  induction l generalizing seen with
  | nil => simp [dedupAux]
  | cons r rs ih =>
    simp only [dedupAux]
    by_cases hr : keyOf r ∈ seen
    · simp only [if_pos hr, ih, List.map_cons, List.mem_cons]
      constructor
      · rintro ⟨hk, hs⟩
        exact ⟨Or.inr hk, hs⟩
      · rintro ⟨hk | hk, hs⟩
        · exact absurd (hk ▸ hr) hs
        · exact ⟨hk, hs⟩
    · simp only [if_neg hr, List.map_cons, List.mem_cons, ih]
      constructor
      · rintro (hk | ⟨hk1, hk2⟩)
        · exact ⟨Or.inl hk, fun hs => hr (hk ▸ hs)⟩
        · exact ⟨Or.inr hk1, fun hs => hk2 (Or.inr hs)⟩
      · rintro ⟨hk | hk, hs⟩
        · exact Or.inl hk
        · by_cases hkr : k = keyOf r
          · exact Or.inl hkr
          · exact Or.inr ⟨hk, fun hmem => hmem.elim hkr hs⟩

theorem keys_dedupKey (l : List Row) (k : Value × Value × Value × Value) :
    k ∈ (dedupKey l).map keyOf ↔ k ∈ l.map keyOf := by
  rw [dedupKey, keys_dedupAux]
  simp

/-- A row from the second block of a concatenation survives
deduplication only if it also occurs in the first block, provided the
first block already contains its key: the first occurrence wins. -/
theorem dedupAux_first_block {l₁ l₂ : List Row} {b : Row}
    (seen : List (Value × Value × Value × Value))
    (hk : keyOf b ∈ l₁.map keyOf) (h : b ∈ dedupAux seen (l₁ ++ l₂)) : b ∈ l₁ := by
  induction l₁ generalizing seen with
  | nil => simp at hk
  | cons x t ih =>
    simp only [List.cons_append, dedupAux] at h
    by_cases hx : keyOf x ∈ seen
    · simp only [if_pos hx] at h
      rcases List.map_cons keyOf x t ▸ hk with hk'
      rcases List.mem_cons.mp hk' with hbx | hbt
      · exact absurd (hbx ▸ hx) (dedupAux_key_not_seen h)
      · exact List.mem_cons_of_mem _ (ih _ hbt h)
    · simp only [if_neg hx] at h
      rcases List.mem_cons.mp h with hbx | h
      · exact hbx ▸ List.mem_cons_self _ _
      · rcases List.mem_cons.mp (List.map_cons keyOf x t ▸ hk) with hbx | hbt
        · exact absurd (by simp [hbx]) (dedupAux_key_not_seen h)
        · exact List.mem_cons_of_mem _ (ih _ hbt h)

theorem dedupKey_first_block {l₁ l₂ : List Row} {b : Row}
    (hk : keyOf b ∈ l₁.map keyOf) (h : b ∈ dedupKey (l₁ ++ l₂)) : b ∈ l₁ :=
  dedupAux_first_block [] hk h

/-! Per-identifier summaries of the fetch loop and the fold lemma. -/

/-- Rows contributed by one identifier: none on fetch failure,
otherwise whatever parse_record salvaged. -/
def perIdRows (p : String × Except String OrcidRecord) : List Row :=
  match p.2 with
  | Except.error _ => []
  | Except.ok rec => (parse_record rec p.1).1

/-- Error details contributed by one identifier: a record_fetching
entry on fetch failure, the record_parsing entry on a caught parse
error, nothing otherwise. -/
def perIdDetails (p : String × Except String OrcidRecord) : List ErrorDetail :=
  match p.2 with
  | Except.error e => [{ orcid_id := some p.1, error := e, stage := "record_fetching" }]
  | Except.ok rec => ((parse_record rec p.1).2.2).toList

/-- Whether one identifier bumps the successful counter: its fetch
succeeded and its parse produced at least one affiliation row. -/
def succFlag (p : String × Except String OrcidRecord) : Bool :=
  match p.2 with
  | Except.error _ => false
  | Except.ok rec => !(parse_record rec p.1).1.isEmpty

theorem stepFetch_spec (acc : List Row × Telemetry)
    (p : String × Except String OrcidRecord) :
    stepFetch acc p =
      (acc.1 ++ perIdRows p,
       { acc.2 with
          processed := acc.2.processed + 1,
          errors := acc.2.errors + (perIdDetails p).length,
          error_details := acc.2.error_details ++ perIdDetails p,
          successful := acc.2.successful + (if succFlag p then 1 else 0) }) := by
  rcases p with ⟨id, o⟩
  cases o with
  | error e => simp [stepFetch, perIdRows, perIdDetails, succFlag]
  | ok rec =>
    rcases hp : parse_record rec id with ⟨rows, ems, od⟩
    simp only [stepFetch, perIdRows, perIdDetails, succFlag, hp]
    cases od with
    | none =>
      by_cases hr : rows.isEmpty
      · simp [hr]
      · simp [hr]
    | some d =>
      by_cases hr : rows.isEmpty
      · simp [hr]
      · simp [hr]

theorem foldl_stepFetch (fs : List (String × Except String OrcidRecord))
    (acc : List Row × Telemetry) :
    fs.foldl stepFetch acc =
      (acc.1 ++ (fs.map perIdRows).flatten,
       { acc.2 with
          processed := acc.2.processed + fs.length,
          errors := acc.2.errors + ((fs.map perIdDetails).flatten).length,
          error_details := acc.2.error_details ++ (fs.map perIdDetails).flatten,
          successful := acc.2.successful + fs.countP succFlag }) := by
  induction fs generalizing acc with
  | nil =>
    rcases acc with ⟨rws, t⟩
    cases t
    simp
  | cons p ps ih =>
    rw [List.foldl_cons, stepFetch_spec, ih]
    rcases acc with ⟨rws, t⟩
    cases t
    simp only [List.map_cons, List.flatten_cons, List.countP_cons, List.length_cons,
      List.length_append, List.append_assoc, Prod.mk.injEq, Telemetry.mk.injEq]
    repeat' apply And.intro
    all_goals try omega
    all_goals by_cases hs : succFlag p <;> simp [hs]

/-! Parser lemmas. -/

theorem collectEmails_spec (es : List EmailEntry) (acc : List String) :
    collectEmails es acc =
      acc ++ (es.filter pubEmail).map EmailEntry.email := by
  induction es generalizing acc with
  | nil => simp [collectEmails]
  | cons e es ih =>
    rw [collectEmails, ih]
    by_cases he : pubEmail e
    · rw [if_pos he, List.filter_cons_of_pos he]
      simp
    · rw [if_neg he, List.filter_cons_of_neg (by simpa using he)]

theorem parseEmployments_total (oid gn fn : String) (ems : List String)
    (es : List EmploymentEntry)
    (h : ∀ e ∈ es, (durOpt e.startYear e.endYear).isSome) :
    parseEmployments oid gn fn ems es = (es.map (rowOfEntry oid gn fn ems), false) := by
  induction es with
  | nil => rfl
  | cons e es ih =>
    have he := h e (List.mem_cons_self _ _)
    rcases hd : durOpt e.startYear e.endYear with _ | d
    · rw [hd] at he
      simp at he
    · rw [parseEmployments, hd]
      rw [ih (fun x hx => h x (List.mem_cons_of_mem _ hx))]
      simp

theorem parseEmployments_partial (oid gn fn : String) (ems : List String)
    (pre : List EmploymentEntry) (bad : EmploymentEntry)
    (post : List EmploymentEntry)
    (hpre : ∀ e ∈ pre, (durOpt e.startYear e.endYear).isSome)
    (hbad : durOpt bad.startYear bad.endYear = Option.none) :
    parseEmployments oid gn fn ems (pre ++ bad :: post) =
      (pre.map (rowOfEntry oid gn fn ems), true) := by
  induction pre with
  | nil =>
    rw [List.nil_append, parseEmployments, hbad]
    rfl
  | cons e es ih =>
    have he := hpre e (List.mem_cons_self _ _)
    rcases hd : durOpt e.startYear e.endYear with _ | d
    · rw [hd] at he
      simp at he
    · rw [List.cons_append, parseEmployments, hd]
      rw [ih (fun x hx => hpre x (List.mem_cons_of_mem _ hx))]
      simp

/-! Closed forms for the search client. -/

theorem perIdDetails_length_le (p : String × Except String OrcidRecord) :
    (perIdDetails p).length ≤ 1 := by
  rcases p with ⟨id, o⟩
  cases o with
  | error e => simp [perIdDetails]
  | ok rec =>
    simp only [perIdDetails]
    cases (parse_record rec id).2.2 <;> simp [Option.toList]

theorem flatten_details_length_le (fs : List (String × Except String OrcidRecord)) :
    ((fs.map perIdDetails).flatten).length ≤ fs.length := by
  induction fs with
  | nil => simp
  | cons p ps ih =>
    simp only [List.map_cons, List.flatten_cons, List.length_append, List.length_cons]
    have := perIdDetails_length_le p
    omega

theorem search_ok_spec (domains : List String) (max_results nf : Nat)
    (fetches : List (String × Except String OrcidRecord)) :
    search_by_email_domains domains max_results (Except.ok (nf, fetches)) =
      { table := buildDF ((fetches.map perIdRows).flatten),
        telemetry :=
          { total_found := nf,
            processed := fetches.length,
            successful := fetches.countP succFlag,
            errors := ((fetches.map perIdDetails).flatten).length,
            orcid_ids := fetches.map Prod.fst,
            error_details := (fetches.map perIdDetails).flatten },
        searchRequest := some (build_email_query domains, max_results) } := by
  simp only [search_by_email_domains, foldl_stepFetch, emptyTelemetry]
  simp

theorem foldl_addcol_id (L : List Col) (df : DataFrame)
    (h : ∀ c ∈ L, df.cols.contains c) :
    L.foldl (fun d c => if d.cols.contains c then d else addColConst d c Value.none) df
      = df := by
  induction L with
  | nil => rfl
  | cons c cs ih =>
    rw [List.foldl_cons, if_pos (h c (List.mem_cons_self _ _))]
    exact ih (fun x hx => h x (List.mem_cons_of_mem _ hx))

theorem buildDF_rows (l : List Row) : (buildDF l).rows = l.map finalizeRow := by
  cases l with
  | nil => rfl
  | cons x xs =>
    have hreq : ∀ c ∈ requiredColumns, (fullCols : List Col).contains c := by decide
    simp only [buildDF, List.isEmpty_cons, Bool.false_eq_true, if_false]
    rw [foldl_addcol_id _ _ hreq]
    rw [List.map_map]
    rfl

/-! Concrete sample records used by counterexamples and witnesses. -/

/-- A record that fetches and parses cleanly but has no employment
section: it produces zero rows and zero errors. -/
def recNoEmp : OrcidRecord :=
  { givenNames := "Ada", familyName := "Doe", emails := [], employments := [] }

/-- An employment entry with integer years. -/
def empGoodYears : EmploymentEntry :=
  { roleTitle := "Professor", department := "Computer Science",
    startYear := Value.i 2015, endYear := Value.i 2020,
    createdDate := Value.i 1577836800000,
    lastModifiedDate := Value.i 1609459200000,
    identType := "ROR", identValue := "https://ror.org/02mhbdp94",
    orgName := "Example University" }

/-- An employment entry whose year values are numeric strings, as the
registry JSON actually delivers them: both truthy, neither an integer,
so the Duration subtraction of line 76 raises a TypeError. -/
def empStringYears : EmploymentEntry :=
  { roleTitle := "Lecturer", department := "History",
    startYear := Value.s "2015", endYear := Value.s "2020",
    createdDate := Value.none, lastModifiedDate := Value.none,
    identType := "", identValue := "", orgName := "Example College" }

def recStringYears : OrcidRecord :=
  { givenNames := "Bob", familyName := "Roe", emails := [],
    employments := [empStringYears] }

def recGoodYears : OrcidRecord :=
  { givenNames := "Cara", familyName := "Poe", emails := [],
    employments := [empGoodYears] }

/-- A record whose second employment entry aborts the parse after the
first entry already produced a row. -/
def recPartial : OrcidRecord :=
  { givenNames := "Dan", familyName := "Moe",
    emails := [{ email := "dan@example.edu", visibility := "public" }],
    employments := [empGoodYears, empStringYears] }

/-- A record with a public-visibility entry carrying an empty address,
a limited-visibility entry, and an ordinary public entry. -/
def recEmailMix : OrcidRecord :=
  { givenNames := "Eve", familyName := "Noe",
    emails := [{ email := "", visibility := "public" },
               { email := "eve@example.org", visibility := "limited" },
               { email := "eve2@example.org", visibility := "public" }],
    employments := [] }

/-! Claim C1. -/

/-- C1 is false as stated: one identifier whose record fetches and
parses without error but contains no employment entries gives
processed = 1 while successful = 0 and errors = 0, so
processed = successful + errors fails after a completed call with no
search-level failure. -/
theorem telemetry_invariant_cex :
    (search_by_email_domains ["example.edu"] 10
        (Except.ok (1, [("0000-0001-0000-0001", Except.ok recNoEmp)]))).telemetry.processed = 1 ∧
    (search_by_email_domains ["example.edu"] 10
        (Except.ok (1, [("0000-0001-0000-0001", Except.ok recNoEmp)]))).telemetry.successful = 0 ∧
    (search_by_email_domains ["example.edu"] 10
        (Except.ok (1, [("0000-0001-0000-0001", Except.ok recNoEmp)]))).telemetry.errors = 0 ∧
    (1 : Nat) ≠ 0 + 0 :=
  ⟨rfl, rfl, rfl, by omega⟩

/-- C1 (amended): after any completed call without a search-level
failure, len(identifiers) >= successful holds, processed equals the
number of identifiers, and successful and errors are each bounded by
processed; the claimed equation processed = successful + errors does
not hold in general, because successful counts only identifiers that
yielded at least one affiliation row while errors counts fetch
failures plus caught parse failures. -/
theorem telemetry_invariant_amended (domains : List String)
    (max_results nf : Nat)
    (fetches : List (String × Except String OrcidRecord)) :
    (search_by_email_domains domains max_results
        (Except.ok (nf, fetches))).telemetry.orcid_ids.length ≥
      (search_by_email_domains domains max_results
        (Except.ok (nf, fetches))).telemetry.successful ∧
    (search_by_email_domains domains max_results
        (Except.ok (nf, fetches))).telemetry.processed =
      (search_by_email_domains domains max_results
        (Except.ok (nf, fetches))).telemetry.orcid_ids.length ∧
    (search_by_email_domains domains max_results
        (Except.ok (nf, fetches))).telemetry.successful ≤
      (search_by_email_domains domains max_results
        (Except.ok (nf, fetches))).telemetry.processed ∧
    (search_by_email_domains domains max_results
        (Except.ok (nf, fetches))).telemetry.errors ≤
      (search_by_email_domains domains max_results
        (Except.ok (nf, fetches))).telemetry.processed := by
  rw [search_ok_spec]
  refine ⟨?_, by simp, List.countP_le_length _, flatten_details_length_le fetches⟩
  simp only [ge_iff_le, List.length_map]
  exact List.countP_le_length _

/-! Claim C6. -/

/-- C6: failure classification.  A top-level search failure is recorded
once into error_details with stage search and the call returns the
empty typed table with zeroed counters (early return); per-identifier
failures each append exactly their own detail entry (stage
record_fetching for fetch failures, the record_parsing entry produced
by the parser for caught parse errors), errors counts exactly those
entries, every identifier is processed, and the result table collects
the rows of all identifiers independently, so one failure never aborts
the batch.  In both cases the embedding returns a plain SearchOutput:
no exception propagates to the caller. -/
theorem failure_classification (domains : List String) (max_results : Nat)
    (outcome : Except String (Nat × List (String × Except String OrcidRecord))) :
    match outcome with
    | Except.error e =>
        search_by_email_domains domains max_results outcome =
          { table := { cols := emptyResultCols, rows := [] },
            telemetry := { emptyTelemetry with
              error_details :=
                [{ orcid_id := Option.none, error := e, stage := "search" }] },
            searchRequest := some (build_email_query domains, max_results) }
    | Except.ok (nf, fetches) =>
        (search_by_email_domains domains max_results outcome).telemetry.processed =
          fetches.length ∧
        (search_by_email_domains domains max_results outcome).telemetry.error_details =
          (fetches.map perIdDetails).flatten ∧
        (search_by_email_domains domains max_results outcome).telemetry.errors =
          ((fetches.map perIdDetails).flatten).length ∧
        (search_by_email_domains domains max_results outcome).table.rows =
          ((fetches.map perIdRows).flatten).map finalizeRow := by
  cases outcome with
  | error e => rfl
  | ok p =>
    rcases p with ⟨nf, fetches⟩
    rw [search_ok_spec]
    exact ⟨rfl, rfl, rfl, buildDF_rows _⟩

/-! Claim C7. -/

/-- C7 is false as stated: called with the empty domain list, the
client does not fail fast with a validation error; it still issues the
network search request, with the empty query string, and records no
error detail at all. -/
theorem empty_domains_cex :
    (search_by_email_domains [] 1000 (Except.ok (0, []))).searchRequest =
      some ("", 1000) ∧
    (search_by_email_domains [] 1000
      (Except.ok (0, []))).telemetry.error_details = [] :=
  ⟨rfl, rfl⟩

/-- C7 (amended): the client performs no validation of the domain list;
for every input (the empty list included) the search request is issued
with the query built from the domains, which is the empty string for
the empty list.  A bad query can only surface later as a search-stage
error from the registry response. -/
theorem search_request_always_issued (domains : List String)
    (max_results : Nat)
    (outcome : Except String (Nat × List (String × Except String OrcidRecord))) :
    (search_by_email_domains domains max_results outcome).searchRequest =
      some (build_email_query domains, max_results) ∧
    build_email_query [] = "" := by
  constructor
  · cases outcome with
    | error e => rfl
    | ok p =>
      rcases p with ⟨nf, fetches⟩
      rfl
  · rfl

/-! Claim C8. -/

/-- C8 is false as stated: an email entry whose visibility is public
but whose address value is empty (falsy) is dropped by the truthiness
guard of line 51, so the returned sequence is not exactly the entries
whose visibility is public. -/
theorem public_email_cex :
    (parse_record recEmailMix "0000-0002-0000-0002").2.1 ≠
      (recEmailMix.emails.filter
        (fun e => e.visibility == "public")).map EmailEntry.email := by
  decide

/-- C8 (amended): the returned email sequence consists of exactly those
entries that have a truthy (non-empty) address value and public
visibility, in record order; every non-public entry is excluded. -/
theorem public_email_amended (rec : OrcidRecord) (oid : String) :
    (parse_record rec oid).2.1 =
      (rec.emails.filter pubEmail).map EmailEntry.email := by
  simp [parse_record, collectEmails_spec]

/-! Claim C5. -/

/-- C5 is false as stated: a record with one employment entry whose
year values are truthy numeric strings produces zero affiliation rows
instead of one, together with a recorded record_parsing failure: the
parser raises on the Duration subtraction rather than treating
non-integer years as absent. -/
theorem parser_year_cex :
    (parse_record recStringYears "0000-0003-0000-0003").1.length = 0 ∧
    recStringYears.employments.length = 1 ∧
    (parse_record recStringYears "0000-0003-0000-0003").2.2 =
      some { orcid_id := some "0000-0003-0000-0003", error := typeErrorMsg,
             stage := "record_parsing" } :=
  ⟨rfl, rfl, rfl⟩

/-- C5 (amended): for every record in which no employment entry
triggers the Duration TypeError (that is, whenever both year values of
an entry are truthy they are integers), the parser returns exactly one
row per employment entry with no recorded failure, every row carries
relation role EMPLOYMENT, and a row's duration is present iff both its
start and end year are present and truthy (non-zero integers).  Truthy
non-integer years instead abort the parse (see the counterexample). -/
theorem parser_rows_amended (rec : OrcidRecord) (oid : String)
    (h : ∀ e ∈ rec.employments, (durOpt e.startYear e.endYear).isSome) :
    (parse_record rec oid).1.length = rec.employments.length ∧
    (parse_record rec oid).2.2 = Option.none ∧
    (∀ r ∈ (parse_record rec oid).1, r.relRole = Value.s "EMPLOYMENT") ∧
    (∀ r ∈ (parse_record rec oid).1,
      (r.duration ≠ Value.none ↔ (r.startYear.truthy ∧ r.endYear.truthy))) := by
  have hemp := parseEmployments_total oid rec.givenNames rec.familyName
    (collectEmails rec.emails []) rec.employments h
  refine ⟨?_, ?_, ?_, ?_⟩
  · simp [parse_record, hemp]
  · simp [parse_record, hemp]
  · intro r hr
    simp only [parse_record, hemp] at hr
    rcases List.mem_map.mp hr with ⟨e, _, he⟩
    rw [← he]
    rfl
  · intro r hr
    simp only [parse_record, hemp] at hr
    rcases List.mem_map.mp hr with ⟨e, hmem, he⟩
    have hs := h e hmem
    rw [← he]
    show ((durOpt e.startYear e.endYear).getD Value.none ≠ Value.none ↔
      (e.startYear.truthy ∧ e.endYear.truthy))
    by_cases ht : e.startYear.truthy && e.endYear.truthy
    · rcases hsy : e.startYear with _ | sv | sn <;>
        rcases hey : e.endYear with _ | ev | en <;>
          rw [hsy, hey] at ht hs <;>
            simp [durOpt, Value.truthy, ht] at hs ⊢ <;>
              simp_all [Value.truthy]
    · have ht2 := ht
      rw [Bool.and_eq_true] at ht2
      simp only [durOpt, ht, Bool.false_eq_true, if_false, Option.getD_some]
      constructor
      · intro hcon
        exact absurd rfl hcon
      · intro hcon
        exact absurd (And.intro hcon.1 hcon.2) (fun hx => ht2 ⟨hx.1, hx.2⟩)

/-- C5 amended witness: the record with one integer-year employment
entry satisfies the hypothesis and produces exactly one row. -/
theorem parser_rows_amended_witness :
    (∀ e ∈ recGoodYears.employments, (durOpt e.startYear e.endYear).isSome) ∧
    (parse_record recGoodYears "0000-0004-0000-0004").1.length =
      recGoodYears.employments.length :=
  ⟨by decide,
   (parser_rows_amended recGoodYears "0000-0004-0000-0004" (by decide)).1⟩

/-! Claim C10. -/

/-- C10: when the Duration subtraction raises on the k-th employment
entry, parse_record catches the error, reports the record_parsing
detail, and still returns the k-1 rows built before the failure
together with the emails already collected; the search client then
extends the table with those partial rows, so the same identifier
simultaneously bumps processed, successful and errors, and its partial
rows reach the output table. -/
theorem partial_parse_salvage (domains : List String) (max_results nf : Nat)
    (oid : String) (rec : OrcidRecord) (pre : List EmploymentEntry)
    (bad : EmploymentEntry) (post : List EmploymentEntry)
    (hrec : rec.employments = pre ++ bad :: post)
    (hpre : ∀ e ∈ pre, (durOpt e.startYear e.endYear).isSome)
    (hbad : durOpt bad.startYear bad.endYear = Option.none)
    (hne : pre ≠ []) :
    (parse_record rec oid).1 =
      pre.map (rowOfEntry oid rec.givenNames rec.familyName
        (collectEmails rec.emails [])) ∧
    (parse_record rec oid).2.2 =
      some { orcid_id := some oid, error := typeErrorMsg,
             stage := "record_parsing" } ∧
    (search_by_email_domains domains max_results
        (Except.ok (nf, [(oid, Except.ok rec)]))).telemetry.processed = 1 ∧
    (search_by_email_domains domains max_results
        (Except.ok (nf, [(oid, Except.ok rec)]))).telemetry.successful = 1 ∧
    (search_by_email_domains domains max_results
        (Except.ok (nf, [(oid, Except.ok rec)]))).telemetry.errors = 1 ∧
    (search_by_email_domains domains max_results
        (Except.ok (nf, [(oid, Except.ok rec)]))).telemetry.error_details =
      [{ orcid_id := some oid, error := typeErrorMsg,
         stage := "record_parsing" }] ∧
    (search_by_email_domains domains max_results
        (Except.ok (nf, [(oid, Except.ok rec)]))).table.rows.length =
      pre.length := by
  have hemp := parseEmployments_partial oid rec.givenNames rec.familyName
    (collectEmails rec.emails []) pre bad post hpre hbad
  have hrows : (parse_record rec oid).1 =
      pre.map (rowOfEntry oid rec.givenNames rec.familyName
        (collectEmails rec.emails [])) := by
    simp [parse_record, hrec, hemp]
  have hdet : (parse_record rec oid).2.2 =
      some { orcid_id := some oid, error := typeErrorMsg,
             stage := "record_parsing" } := by
    simp [parse_record, hrec, hemp]
  have hflag : succFlag (oid, Except.ok rec) = true := by
    simp only [succFlag, hrows]
    simp [List.isEmpty_eq_true, hne]
  have hperr : perIdDetails (oid, Except.ok rec) =
      [{ orcid_id := some oid, error := typeErrorMsg,
         stage := "record_parsing" }] := by
    simp [perIdDetails, hdet]
  have hprows : perIdRows (oid, Except.ok rec) =
      pre.map (rowOfEntry oid rec.givenNames rec.familyName
        (collectEmails rec.emails [])) := by
    simp [perIdRows, hrows]
  rw [search_ok_spec]
  refine ⟨hrows, hdet, rfl, ?_, ?_, ?_, ?_⟩
  · simp [List.countP_cons, hflag]
  · simp [hperr]
  · simp [hperr]
  · rw [buildDF_rows]
    simp [hprows]

/-- C10 witness: the two-entry record whose second entry has string
years contributes one salvaged row while bumping successful and errors
together. -/
theorem partial_parse_salvage_witness :
    recPartial.employments = [empGoodYears] ++ empStringYears :: [] ∧
    (search_by_email_domains ["example.edu"] 5
        (Except.ok (2, [("0000-0005-0000-0005", Except.ok recPartial)]))).telemetry.successful = 1 ∧
    (search_by_email_domains ["example.edu"] 5
        (Except.ok (2, [("0000-0005-0000-0005", Except.ok recPartial)]))).telemetry.errors = 1 ∧
    (search_by_email_domains ["example.edu"] 5
        (Except.ok (2, [("0000-0005-0000-0005", Except.ok recPartial)]))).table.rows.length = 1 := by
  have h := partial_parse_salvage ["example.edu"] 5 2 "0000-0005-0000-0005"
    recPartial [empGoodYears] empStringYears [] rfl (by decide) (by decide)
    (by decide)
  exact ⟨rfl, h.2.2.2.1, h.2.2.2.2.1, h.2.2.2.2.2.2⟩

/-! Column-list helper lemmas. -/

theorem contains_append_iff (l1 l2 : List Col) (c : Col) :
    (l1 ++ l2).contains c = true ↔
      (l1.contains c = true ∨ l2.contains c = true) := by
  simp only [List.elem_iff, List.mem_append]

theorem contains_append_left (l1 l2 : List Col) (c : Col)
    (h : l1.contains c = true) : (l1 ++ l2).contains c = true :=
  (contains_append_iff l1 l2 c).mpr (Or.inl h)

theorem contains_false_of_not (l : List Col) (c : Col)
    (h : ¬ l.contains c = true) : l.contains c = false := by
  cases hx : l.contains c
  · rfl
  · exact absurd hx h

theorem contains_union_right (l1 l2 : List Col) (c : Col)
    (h : l2.contains c = true) :
    (l1 ++ l2.filter (fun x => !l1.contains x)).contains c = true := by
  by_cases h1 : l1.contains c = true
  · exact contains_append_left _ _ _ h1
  · apply (contains_append_iff _ _ _).mpr
    right
    apply List.elem_iff.mpr
    apply List.mem_filter.mpr
    refine ⟨List.elem_iff.mp h, ?_⟩
    rw [contains_false_of_not l1 c h1]
    rfl

theorem contains_union_elim (l1 l2 : List Col) (c : Col)
    (h : (l1 ++ l2.filter (fun x => !l1.contains x)).contains c = true) :
    l1.contains c = true ∨ l2.contains c = true := by
  rcases (contains_append_iff _ _ _).mp h with hh | hh
  · exact Or.inl hh
  · right
    apply List.elem_iff.mpr
    exact (List.mem_filter.mp (List.elem_iff.mp hh)).1

theorem filter_not_contains_nil (l1 l2 : List Col)
    (h : ∀ c, l2.contains c = true → l1.contains c = true) :
    l2.filter (fun x => !l1.contains x) = [] := by
  apply List.filter_eq_nil_iff.mpr
  intro a ha
  have hc := h a (List.elem_iff.mpr ha)
  intro hx
  rw [hc] at hx
  exact absurd hx (by simp)

theorem isEmpty_false_of_ne_nil {α : Type} (l : List α) (h : l ≠ []) :
    l.isEmpty = false := by
  cases hx : l.isEmpty
  · rfl
  · exact absurd (List.isEmpty_iff.mp hx) h

theorem dedupKey_ne_nil (l : List Row) (h : l ≠ []) : dedupKey l ≠ [] := by
  cases l with
  | nil => exact absurd rfl h
  | cons r rs => simp [dedupKey, dedupAux]

/-! Preparation-step lemmas for the merge engine: each in-place
backfill of file_data preserves row count and the deduplication key of
every row, only ever adds the source, email or duration column, and
keeps all pre-existing columns. -/

def StepSpec (df fd : DataFrame) (extra : List Col) : Prop :=
  (∃ g : Row → Row, fd.rows = df.rows.map g ∧ ∀ r, keyOf (g r) = keyOf r) ∧
  (∀ c, df.cols.contains c = true → fd.cols.contains c = true) ∧
  (∀ c, fd.cols.contains c = true → df.cols.contains c = true ∨ c ∈ extra)

theorem stepSpec_refl (df : DataFrame) (extra : List Col) :
    StepSpec df df extra :=
  ⟨⟨id, (List.map_id df.rows).symm, fun _ => rfl⟩,
   fun _ h => h, fun _ h => Or.inl h⟩

theorem stepSpec_trans {df fd fd2 : DataFrame} {e1 e2 : List Col}
    (h1 : StepSpec df fd e1) (h2 : StepSpec fd fd2 e2) :
    StepSpec df fd2 (e1 ++ e2) := by
  obtain ⟨⟨g1, hr1, hk1⟩, hup1, hdown1⟩ := h1
  obtain ⟨⟨g2, hr2, hk2⟩, hup2, hdown2⟩ := h2
  refine ⟨⟨g2 ∘ g1, by rw [hr2, hr1, List.map_map], fun r => (hk2 _).trans (hk1 r)⟩,
    fun c hc => hup2 c (hup1 c hc), fun c hc => ?_⟩
  rcases hdown2 c hc with hh | hh
  · rcases hdown1 c hh with hhh | hhh
    · exact Or.inl hhh
    · exact Or.inr (List.mem_append_left _ hhh)
  · exact Or.inr (List.mem_append_right _ hh)

theorem ensureSource_spec (df : DataFrame) :
    StepSpec df (ensureSource df) [Col.source] ∧
    (ensureSource df).cols.contains Col.source = true := by
  unfold ensureSource
  by_cases h : df.cols.contains Col.source = true
  · rw [if_pos h]
    exact ⟨stepSpec_refl df [Col.source], h⟩
  · rw [if_neg h]
    refine ⟨⟨⟨fun r => r.set Col.source (Value.s "File Upload"), rfl,
      fun r => keyOf_set_source r _⟩, ?_, ?_⟩, ?_⟩
    · intro c hc
      exact contains_append_left _ _ _ hc
    · intro c hc
      rcases (contains_append_iff _ _ _).mp hc with hh | hh
      · exact Or.inl hh
      · exact Or.inr (List.elem_iff.mp hh)
    · exact (contains_append_iff _ _ _).mpr (Or.inr (by decide))

theorem ensureEmail_spec (df : DataFrame) :
    StepSpec df (ensureEmail df) [Col.emailAddresses] ∧
    (ensureEmail df).cols.contains Col.emailAddresses = true := by
  unfold ensureEmail
  by_cases h : df.cols.contains Col.emailAddresses = true
  · rw [if_pos h]
    exact ⟨stepSpec_refl df [Col.emailAddresses], h⟩
  · rw [if_neg h]
    refine ⟨⟨⟨fun r => r.set Col.emailAddresses Value.none, rfl,
      fun r => keyOf_set_email r _⟩, ?_, ?_⟩, ?_⟩
    · intro c hc
      exact contains_append_left _ _ _ hc
    · intro c hc
      rcases (contains_append_iff _ _ _).mp hc with hh | hh
      · exact Or.inl hh
      · exact Or.inr (List.elem_iff.mp hh)
    · exact (contains_append_iff _ _ _).mpr (Or.inr (by decide))

theorem ensureDuration_spec (df fd : DataFrame)
    (h : ensureDuration df = Except.ok fd) :
    StepSpec df fd [Col.duration] ∧ fd.cols.contains Col.duration = true := by
  unfold ensureDuration at h
  by_cases hd : df.cols.contains Col.duration = true
  · rw [if_pos hd] at h
    simp only [Except.ok.injEq] at h
    subst h
    exact ⟨stepSpec_refl df [Col.duration], hd⟩
  · rw [if_neg hd] at h
    by_cases hy : (df.cols.contains Col.startYear && df.cols.contains Col.endYear) = true
    · rw [if_pos hy] at h
      simp only [Except.ok.injEq] at h
      subst h
      refine ⟨⟨⟨fun r => r.set Col.duration (durRecompute r), rfl,
        fun r => keyOf_set_duration r _⟩, ?_, ?_⟩, ?_⟩
      · intro c hc
        exact contains_append_left _ _ _ hc
      · intro c hc
        rcases (contains_append_iff _ _ _).mp hc with hh | hh
        · exact Or.inl hh
        · exact Or.inr (List.elem_iff.mp hh)
      · exact (contains_append_iff _ _ _).mpr (Or.inr (by decide))
    · rw [if_neg hy] at h
      exact absurd h (by simp)

theorem ensureDuration_of_contains (df : DataFrame)
    (h : df.cols.contains Col.duration = true) :
    ensureDuration df = Except.ok df := by
  unfold ensureDuration
  rw [if_pos h]

theorem prepFile_spec (df fd : DataFrame) (h : prepFile df = Except.ok fd) :
    StepSpec df fd [Col.source, Col.emailAddresses, Col.duration] ∧
    fd.cols.contains Col.source = true ∧
    fd.cols.contains Col.emailAddresses = true ∧
    fd.cols.contains Col.duration = true := by
  unfold prepFile at h
  have hs := ensureSource_spec df
  have he := ensureEmail_spec (ensureSource df)
  have hd := ensureDuration_spec (ensureEmail (ensureSource df)) fd h
  refine ⟨stepSpec_trans (stepSpec_trans hs.1 he.1) hd.1, ?_, ?_, hd.2⟩
  · exact hd.1.2.1 Col.source (he.1.2.1 Col.source hs.2)
  · exact hd.1.2.1 Col.emailAddresses he.2

theorem prepFile_of_contains (df : DataFrame)
    (hs : df.cols.contains Col.source = true)
    (he : df.cols.contains Col.emailAddresses = true)
    (hd : df.cols.contains Col.duration = true) :
    prepFile df = Except.ok df := by
  unfold prepFile ensureSource ensureEmail
  rw [if_pos hs, if_pos he]
  exact ensureDuration_of_contains df hd

/-! Destructuring lemmas for the branches of the merge engine. -/

theorem merge_main_spec (api file res fa ff : DataFrame)
    (hapi : api.rows.isEmpty = false) (hfile : file.rows.isEmpty = false)
    (hok : merge_with_existing_data api file = Except.ok (res, fa, ff)) :
    prepFile file = Except.ok ff ∧ fa = api ∧
    res.cols = ff.cols ++ api.cols.filter (fun c => !ff.cols.contains c) ∧
    res.rows = dedupKey (ff.rows.map (normRow ff.cols) ++
      api.rows.map (normRow api.cols)) ∧
    ([Col.orcidId, Col.relRole, Col.startYear, Col.endYear].all
      (fun c => (ff.cols ++
        api.cols.filter (fun c => !ff.cols.contains c)).contains c)) = true := by
  unfold merge_with_existing_data at hok
  rw [hapi, hfile] at hok
  simp only [Bool.false_eq_true, if_false] at hok
  rcases hp : prepFile file with e | fd3
  · rw [hp] at hok
    exact absurd hok (by simp)
  · rw [hp] at hok
    dsimp only at hok
    by_cases hc : ([Col.orcidId, Col.relRole, Col.startYear, Col.endYear].all
        (fun c => (fd3.cols ++
          api.cols.filter (fun c => !fd3.cols.contains c)).contains c)) = true
    · rw [if_pos hc] at hok
      simp only [Except.ok.injEq, Prod.mk.injEq] at hok
      obtain ⟨h1, h2, h3⟩ := hok
      subst h2 h3
      exact ⟨rfl, rfl, by rw [← h1], by rw [← h1], hc⟩
    · rw [if_neg hc] at hok
      exact absurd hok (by simp)

theorem merge_api_empty_spec (api file res fa ff : DataFrame)
    (hapi : api.rows.isEmpty = true)
    (hok : merge_with_existing_data api file = Except.ok (res, fa, ff)) :
    ensureDuration file = Except.ok res ∧ fa = api ∧ ff = res := by
  unfold merge_with_existing_data at hok
  rw [hapi] at hok
  simp only [if_true] at hok
  rcases hp : ensureDuration file with e | fd
  · rw [hp] at hok
    exact absurd hok (by simp)
  · rw [hp] at hok
    dsimp only at hok
    simp only [Except.ok.injEq, Prod.mk.injEq] at hok
    obtain ⟨h1, h2, h3⟩ := hok
    subst h1 h2 h3
    exact ⟨rfl, rfl, rfl⟩

theorem merge_file_empty_spec (api file res fa ff : DataFrame)
    (hapi : api.rows.isEmpty = false) (hfile : file.rows.isEmpty = true)
    (hok : merge_with_existing_data api file = Except.ok (res, fa, ff)) :
    res = api ∧ fa = api ∧ ff = file := by
  unfold merge_with_existing_data at hok
  rw [hapi, hfile] at hok
  simp only [Bool.false_eq_true, if_false, if_true, Except.ok.injEq,
    Prod.mk.injEq] at hok
  obtain ⟨h1, h2, h3⟩ := hok
  exact ⟨h1.symm, h2.symm, h3.symm⟩

/-! Concrete frames used by the merge counterexamples and witnesses. -/

/-- Row with every cell absent. -/
def blankRow : Row :=
  { orcidId := Value.none, givenNames := Value.none, familyName := Value.none,
    relRole := Value.none, relTitle := Value.none, department := Value.none,
    startYear := Value.none, endYear := Value.none, duration := Value.none,
    dateCreated := Value.none, lastModified := Value.none, source := Value.none,
    identType := Value.none, identValue := Value.none,
    emailAddresses := Value.none, orgName := Value.none }

/-- A file-upload row: key columns plus a department, nothing else. -/
def fileRowW : Row :=
  { blankRow with
      orcidId := Value.s "0000-0007-0000-0007",
      relRole := Value.s "EMPLOYMENT", startYear := Value.i 2010,
      endYear := Value.i 2012, department := Value.s "Chemistry" }

/-- An uploaded file table lacking the Source, Email Addresses and
Duration columns. -/
def fileW : DataFrame :=
  { cols := [Col.orcidId, Col.relRole, Col.startYear, Col.endYear,
             Col.department],
    rows := [fileRowW] }

/-- An api row sharing the dedup key of fileRowW but differing in the
department column. -/
def apiRowW : Row :=
  { blankRow with
      orcidId := Value.s "0000-0007-0000-0007",
      relRole := Value.s "EMPLOYMENT", startYear := Value.i 2010,
      endYear := Value.i 2012, department := Value.s "Physics",
      duration := Value.i 2, source := Value.s "ORCID API",
      emailAddresses := Value.s "x@example.edu" }

/-- A one-row api table with the full search column set. -/
def apiW : DataFrame := { cols := fullCols, rows := [apiRowW] }

/-- fileW as prepared in place by the merge engine: Source backfilled,
Email Addresses added as absent, Duration computed. -/
def ffW : DataFrame :=
  { cols := [Col.orcidId, Col.relRole, Col.startYear, Col.endYear,
             Col.department, Col.source, Col.emailAddresses, Col.duration],
    rows := [{ fileRowW with
                 source := Value.s "File Upload", duration := Value.i 2 }] }

/-- The merged frame for apiW/fileW: the prepared file row wins on the
shared key, the api-only columns are appended. -/
def resW : DataFrame :=
  { cols := [Col.orcidId, Col.relRole, Col.startYear, Col.endYear,
             Col.department, Col.source, Col.emailAddresses, Col.duration,
             Col.givenNames, Col.familyName, Col.relTitle, Col.dateCreated,
             Col.lastModified, Col.identType, Col.identValue, Col.orgName],
    rows := [{ fileRowW with
                 source := Value.s "File Upload", duration := Value.i 2 }] }

/-- An api frame with columns but no rows, as the search returns when
nothing was found. -/
def emptyApiDF : DataFrame := { cols := emptyResultCols, rows := [] }

/-! Claim C2. -/

/-- C2: for non-empty inputs the merge concatenates the (prepared)
existing file rows first and the api rows second, deduplicates on the
composite key keeping the first occurrence, and therefore on any key
shared between a file row and an api row a file-side row with that key
is retained while the api row survives only if it already occurs among
the file-side rows — regardless of any differences in other columns.
ff is the file table as prepared in place by the function (the
post-call state of the file argument), whose rows agree with the
original file rows everywhere except the backfilled source, email and
duration cells; rows are compared in their concatenated form, with
cells of columns a side does not carry read as absent. -/
theorem merge_dedup_existing_wins (api file res fa ff : DataFrame)
    (hapi : api.rows ≠ []) (hfile : file.rows ≠ [])
    (hok : merge_with_existing_data api file = Except.ok (res, fa, ff)) :
    res.rows = dedupKey (ff.rows.map (normRow ff.cols) ++
      api.rows.map (normRow api.cols)) ∧
    (∀ b ∈ api.rows.map (normRow api.cols),
      ∀ a ∈ ff.rows.map (normRow ff.cols), keyOf a = keyOf b →
        ((∃ kept, kept ∈ ff.rows.map (normRow ff.cols) ∧
            keyOf kept = keyOf b ∧ kept ∈ res.rows) ∧
         (b ∈ res.rows → b ∈ ff.rows.map (normRow ff.cols)))) := by
  obtain ⟨hp, hfa, hcols, hrows, hall⟩ := merge_main_spec api file res fa ff
    (isEmpty_false_of_ne_nil _ hapi) (isEmpty_false_of_ne_nil _ hfile) hok
  refine ⟨hrows, ?_⟩
  intro b hb a ha hkey
  have hkmem : keyOf b ∈ (ff.rows.map (normRow ff.cols)).map keyOf := by
    rw [← hkey]
    exact List.mem_map_of_mem keyOf ha
  constructor
  · have hk2 : keyOf b ∈ (dedupKey (ff.rows.map (normRow ff.cols) ++
        api.rows.map (normRow api.cols))).map keyOf := by
      rw [keys_dedupKey, List.map_append]
      exact List.mem_append_left _ hkmem
    rcases List.mem_map.mp hk2 with ⟨kept, hkd, hkk⟩
    refine ⟨kept, ?_, hkk, by rw [hrows]; exact hkd⟩
    exact dedupKey_first_block (by rw [hkk]; exact hkmem) hkd
  · intro hbres
    rw [hrows] at hbres
    exact dedupKey_first_block hkmem hbres

/-- C2 witness: the merge of the concrete one-row frames keeps the
prepared file row and drops the api row that shares its key. -/
theorem merge_dedup_existing_wins_witness :
    apiW.rows ≠ [] ∧ fileW.rows ≠ [] ∧
    merge_with_existing_data apiW fileW = Except.ok (resW, apiW, ffW) ∧
    resW.rows = dedupKey (ffW.rows.map (normRow ffW.cols) ++
      apiW.rows.map (normRow apiW.cols)) := by
  refine ⟨by decide, by decide, rfl, ?_⟩
  exact (merge_dedup_existing_wins apiW fileW resW apiW ffW
    (by decide) (by decide) rfl).1

/-! Claim C3. -/

/-- C3 names a real code bug: the merge mutates file_data in place.
With an empty api table and a file table lacking the Duration column,
the post-call state of the file argument (third component) has gained
a Duration column and is no longer value-equal to its pre-call state,
although the specification demands that neither input be observably
mutated in any branch.  The same in-place backfills hit the non-empty
branch (lines 229-238 of the source assign new columns directly on
file_data). -/
theorem merge_mutates_file_data :
    merge_with_existing_data emptyApiDF fileW =
      Except.ok (addDurationCol fileW, emptyApiDF, addDurationCol fileW) ∧
    addDurationCol fileW ≠ fileW := by
  exact ⟨rfl, by decide⟩

/-! Claim C4. -/

/-- C4 is false as stated: in the api-empty branch the result is the
file table with (at most) Duration recomputed — the Source column is
not backfilled, so the caller can receive a table lacking required
columns. -/
theorem merge_empty_branch_cex :
    merge_with_existing_data emptyApiDF fileW =
      Except.ok (addDurationCol fileW, emptyApiDF, addDurationCol fileW) ∧
    (addDurationCol fileW).cols.contains Col.source = false ∧
    (addDurationCol fileW).cols.contains Col.duration = true := by
  refine ⟨rfl, by decide, by decide⟩

/-- C4 (amended): when the api table is empty the merge returns the
file table with only the Duration column ensured (recomputed from the
coerced year columns when missing, raising when they are absent too);
the ensured table keeps exactly the file columns plus Duration, so
Source is present in the result iff it was present in the input, and
no other backfill happens.  When only the file table is empty the api
table is returned entirely unchanged. -/
theorem merge_empty_branch_amended (api file : DataFrame) :
    (if api.rows.isEmpty then
       merge_with_existing_data api file =
         Except.map (fun fd => (fd, api, fd)) (ensureDuration file)
     else if file.rows.isEmpty then
       merge_with_existing_data api file = Except.ok (api, api, file)
     else True) ∧
    (match ensureDuration file with
     | Except.error _ => True
     | Except.ok fd =>
       fd.cols.contains Col.source = file.cols.contains Col.source ∧
       fd.cols.contains Col.duration = true ∧
       fd.rows.length = file.rows.length) := by
  constructor
  · by_cases ha : api.rows.isEmpty
    · rw [if_pos ha]
      unfold merge_with_existing_data
      simp only [ha, if_true]
      cases he : ensureDuration file <;> simp [he, Except.map]
    · rw [if_neg ha]
      by_cases hf : file.rows.isEmpty
      · rw [if_pos hf]
        have ha2 : api.rows.isEmpty = false := by
          cases hx : api.rows.isEmpty
          · rfl
          · exact absurd hx ha
        unfold merge_with_existing_data
        simp [ha2, hf]
      · rw [if_neg hf]
        trivial
  · cases he : ensureDuration file with
    | error e => trivial
    | ok fd =>
      unfold ensureDuration at he
      by_cases hd : file.cols.contains Col.duration = true
      · rw [if_pos hd] at he
        simp only [Except.ok.injEq] at he
        subst he
        exact ⟨rfl, hd, rfl⟩
      · rw [if_neg hd] at he
        by_cases hy : (file.cols.contains Col.startYear &&
            file.cols.contains Col.endYear) = true
        · rw [if_pos hy] at he
          simp only [Except.ok.injEq] at he
          subst he
          simp only [addDurationCol]
          refine ⟨?_, ?_, ?_⟩
          · by_cases hs : file.cols.contains Col.source = true
            · rw [hs]
              exact contains_append_left _ _ _ hs
            · have h1 : (file.cols ++ [Col.duration]).contains Col.source = false := by
                apply contains_false_of_not
                intro hx
                rcases (contains_append_iff _ _ _).mp hx with hh | hh
                · exact hs hh
                · exact absurd (List.elem_iff.mp hh) (by decide)
              rw [h1, contains_false_of_not _ _ hs]
          · exact (contains_append_iff _ _ _).mpr (Or.inr (by decide))
          · simp [addDurationCol]
        · rw [if_neg hy] at he
          exact absurd he (by simp)

/-! Claim C9. -/

/-- Keys of a list of rows, as a membership predicate helper: the key
lists of the two sides of the concatenation feeding drop_duplicates. -/
theorem keys_map_norm_eq (cs : List Col) (l : List Row)
    (h1 : cs.contains Col.orcidId = true) (h2 : cs.contains Col.relRole = true)
    (h3 : cs.contains Col.startYear = true) (h4 : cs.contains Col.endYear = true) :
    (l.map (normRow cs)).map keyOf = l.map keyOf := by
  rw [List.map_map]
  apply List.map_congr_left
  intro r _
  exact keyOf_normRow r h1 h2 h3 h4

/-- Keys of prepared file rows coincide with the keys of the original
file rows, provided the key columns are all present in the original
frame. -/
theorem keys_prep_eq (file ff : DataFrame) (hp : prepFile file = Except.ok ff)
    (h1 : file.cols.contains Col.orcidId = true)
    (h2 : file.cols.contains Col.relRole = true)
    (h3 : file.cols.contains Col.startYear = true)
    (h4 : file.cols.contains Col.endYear = true) :
    (ff.rows.map (normRow ff.cols)).map keyOf = file.rows.map keyOf := by
  obtain ⟨⟨⟨g, hg, hk⟩, hup, _⟩, _, _, _⟩ := prepFile_spec file ff hp
  rw [keys_map_norm_eq ff.cols ff.rows (hup _ h1) (hup _ h2) (hup _ h3) (hup _ h4)]
  rw [hg, List.map_map]
  apply List.map_congr_left
  intro r _
  exact hk r

/-- A key column present in the concatenated column list of the main
merge branch is present in the original file columns or in the api
columns. -/
theorem keycol_in_orig (file ff api : DataFrame)
    (hp : prepFile file = Except.ok ff) (c : Col)
    (hcc : (ff.cols ++ api.cols.filter (fun x => !ff.cols.contains x)).contains c
      = true)
    (hnot : c ∉ [Col.source, Col.emailAddresses, Col.duration]) :
    file.cols.contains c = true ∨ api.cols.contains c = true := by
  obtain ⟨⟨_, _, hdown⟩, _, _, _⟩ := prepFile_spec file ff hp
  rcases contains_union_elim _ _ _ hcc with hh | hh
  · rcases hdown c hh with hhh | hhh
    · exact Or.inl hhh
    · exact absurd hhh hnot
  · exact Or.inr hh

/-- C9: the merge is idempotent with respect to the deduplication key:
repeating a merge with the same second table introduces no new keys and
loses none.  In the notation of the specification, merge(A, B) treats A
as the existing table (the file_data argument) and B as the new table
(the api_data argument), so merge(merge(A, B), B) feeds the first
result back in as the existing table while B is passed as new again;
the key sets of the two results coincide whenever both calls return. -/
theorem merge_idempotent_keys (A B M1 M2 a1 f1 a2 f2 : DataFrame)
    (h1 : merge_with_existing_data B A = Except.ok (M1, a1, f1))
    (h2 : merge_with_existing_data B M1 = Except.ok (M2, a2, f2)) :
    ∀ k, k ∈ M2.rows.map keyOf ↔ k ∈ M1.rows.map keyOf := by
  by_cases hb : B.rows.isEmpty = true
  · -- the new table is empty: both calls only ensure Duration
    obtain ⟨hd1, _, _⟩ := merge_api_empty_spec B A M1 a1 f1 hb h1
    obtain ⟨hd2, _, _⟩ := merge_api_empty_spec B M1 M2 a2 f2 hb h2
    have hcont := (ensureDuration_spec A M1 hd1).2
    rw [ensureDuration_of_contains M1 hcont] at hd2
    simp only [Except.ok.injEq] at hd2
    subst hd2
    intro k
    rfl
  · have hbf : B.rows.isEmpty = false := by
      cases hx : B.rows.isEmpty
      · rfl
      · exact absurd hx hb
    by_cases ha : A.rows.isEmpty = true
    · -- the existing table is empty: the first call returns B unchanged
      obtain ⟨hM1, _, _⟩ := merge_file_empty_spec B A M1 a1 f1 hbf ha h1
      rw [hM1] at h2
      obtain ⟨hp2, _, _, hrows2, hall2⟩ :=
        merge_main_spec B B M2 a2 f2 hbf hbf h2
      have hkeys := List.all_eq_true.mp hall2
      have hB : ∀ c ∈ [Col.orcidId, Col.relRole, Col.startYear, Col.endYear],
          B.cols.contains c = true := by
        intro c hc
        have hcc := hkeys c hc
        have hnot : c ∉ [Col.source, Col.emailAddresses, Col.duration] := by
          fin_cases hc <;> decide
        rcases keycol_in_orig B f2 B hp2 c hcc hnot with hh | hh
        · exact hh
        · exact hh
      intro k
      rw [hM1, hrows2, keys_dedupKey, List.map_append, List.mem_append]
      rw [keys_prep_eq B f2 hp2
        (hB Col.orcidId (by decide)) (hB Col.relRole (by decide))
        (hB Col.startYear (by decide)) (hB Col.endYear (by decide))]
      rw [keys_map_norm_eq B.cols B.rows
        (hB Col.orcidId (by decide)) (hB Col.relRole (by decide))
        (hB Col.startYear (by decide)) (hB Col.endYear (by decide))]
      constructor
      · rintro (hh | hh) <;> exact hh
      · intro hh
        exact Or.inl hh
    · -- both tables non-empty: the main branch runs twice
      have haf : A.rows.isEmpty = false := by
        cases hx : A.rows.isEmpty
        · rfl
        · exact absurd hx ha
      obtain ⟨hp1, _, hcols1, hrows1, hall1⟩ :=
        merge_main_spec B A M1 a1 f1 hbf haf h1
      obtain ⟨⟨⟨g, hg, _⟩, _, _⟩, hsrc1, heml1, hdur1⟩ := prepFile_spec A f1 hp1
      have hM1ne : M1.rows.isEmpty = false := by
        apply isEmpty_false_of_ne_nil
        rw [hrows1]
        apply dedupKey_ne_nil
        intro hnil
        rcases List.append_eq_nil.mp hnil with ⟨hfn, _⟩
        rw [hg] at hfn
        have : A.rows = [] := by
          have := congrArg List.length hfn
          simp only [List.length_map] at this
          exact List.length_eq_zero.mp this
        exact ha (by rw [this]; rfl)
      obtain ⟨hp2, _, hcols2, hrows2, hall2⟩ :=
        merge_main_spec B M1 M2 a2 f2 hbf hM1ne h2
      have hM1cols : ∀ c, f1.cols.contains c = true → M1.cols.contains c = true := by
        intro c hc
        rw [hcols1]
        exact contains_append_left _ _ _ hc
      have hprep2 : prepFile M1 = Except.ok M1 :=
        prepFile_of_contains M1 (hM1cols _ hsrc1) (hM1cols _ heml1) (hM1cols _ hdur1)
      rw [hprep2] at hp2
      simp only [Except.ok.injEq] at hp2
      subst hp2
      have hid : ∀ r ∈ M1.rows, normRow M1.cols r = r := by
        intro r hr
        rw [hrows1] at hr
        have hr2 := dedupAux_subset hr
        rcases List.mem_append.mp hr2 with hh | hh
        · rcases List.mem_map.mp hh with ⟨x, _, hxe⟩
          rw [← hxe]
          refine normRow_normRow ?_ x
          intro c hc
          rw [hcols1]
          exact contains_append_left _ _ _ hc
        · rcases List.mem_map.mp hh with ⟨y, _, hye⟩
          rw [← hye]
          refine normRow_normRow ?_ y
          intro c hc
          rw [hcols1]
          exact contains_union_right _ _ _ hc
      have hmapid : M1.rows.map (normRow M1.cols) = M1.rows :=
        List.map_congr_left hid ▸ List.map_id M1.rows
      intro k
      rw [hrows2, hmapid, keys_dedupKey, List.map_append, List.mem_append]
      rw [hrows1, keys_dedupKey, List.map_append, List.mem_append]
      constructor
      · rintro (hh | hh)
        · exact hh
        · exact Or.inr hh
      · intro hh
        exact Or.inl hh

/-- C9 witness: merging the concrete one-row frames twice with the same
api table yields the same frame, hence the same key set. -/
theorem merge_idempotent_keys_witness :
    merge_with_existing_data apiW fileW = Except.ok (resW, apiW, ffW) ∧
    merge_with_existing_data apiW resW = Except.ok (resW, apiW, resW) ∧
    (∀ k, k ∈ resW.rows.map keyOf ↔ k ∈ resW.rows.map keyOf) := by
  refine ⟨rfl, rfl, ?_⟩
  exact merge_idempotent_keys fileW apiW resW resW apiW ffW apiW resW rfl rfl
